import Mathlib

/-!
# Verification of the goburn resource-utilization controller

Shallow embedding of the controller in `main.go` of pedromol/goburn: the
CPU-sample window and 95th-percentile statistic, the three load pools
(CPU workers, memory buffer, network workers) with their scale-up /
scale-down operations, the monitor tick (cooldown gate, minimum-floor
enforcement, target-based adjustment), and the graceful-shutdown drain.

Modelling choices:
* Go `float64` quantities (utilization percentages, Mbps, diffs) are
  modelled as `ℚ`.  Every constant that appears in the program (10, 20,
  5, 0.95, ...) is exactly representable and all comparisons the program
  performs on them are exact, except for `math.Ceil(0.95*float64(n))`
  in the percentile computation; for every window size `n ≤ 200` the
  float computation agrees with the exact rational ceiling
  `⌈19n/20⌉ = (19n+19)/20`, and the live window never holds more than
  100 samples, so the rational model is faithful there too.
* Go `int`/`int64` values are modelled as `ℤ` (with `ℕ` for the length
  of the memory byte slice, which is a Go `len` and hence nonnegative).
* The memory buffer is modelled by its length in bytes: its contents are
  pseudo-random and no specified behaviour depends on them.
* A stop channel carries no data we track, so the stop-channel slices
  are modelled as `List Unit`, keeping the push/pop structure of the
  code.
* Wall-clock instants and durations are modelled as `ℤ` in a common
  abstract unit; `time.Time.Sub` becomes integer subtraction.
-/

namespace GoBurn

/-- Go's conversion from `float64` to an integer type truncates toward
zero (`int(x)`, `int64(x)`). -/
def trunc (q : ℚ) : ℤ := if 0 ≤ q then ⌊q⌋ else ⌈q⌉

/-- The `Config` struct (`main.go`): thresholds, cooldown delays, memory
ceiling and feature flag.  Fields not consulted by the control logic
(node name, network interface) are omitted. -/
structure Config where
  targetCPUUtilization : ℚ
  targetMemoryUtilization : ℚ
  minCPUUtilization : ℚ
  minMemoryUtilization : ℚ
  minNetworkUtilizationMbps : ℚ
  monitorInterval : ℤ
  scaleUpDelay : ℤ
  scaleDownDelay : ℤ
  maxMemoryMB : ℤ
  enableMemoryUtilization : Bool
deriving DecidableEq

/-- The default configuration produced by `loadConfig` when no
environment variable overrides are present. -/
def cfgDefault : Config :=
  { targetCPUUtilization := 80
    targetMemoryUtilization := 80
    minCPUUtilization := 20
    minMemoryUtilization := 20
    minNetworkUtilizationMbps := 20
    monitorInterval := 30
    scaleUpDelay := 60
    scaleDownDelay := 120
    maxMemoryMB := 1024
    enableMemoryUtilization := true }

/-- The mutable fields of the `ResourceBurner` struct: the memory buffer
(by length, in bytes), the two worker pools with their stop-channel
slices, the scaling state, and the CPU sample window. -/
structure BurnerState where
  memoryData : ℕ
  cpuWorkers : ℤ
  stopChannels : List Unit
  networkWorkers : ℤ
  networkStopChans : List Unit
  lastScaleAction : ℤ
  scalingUp : Bool
  cpuSamples : List ℚ
deriving DecidableEq

/-- The state built by `NewResourceBurner`: empty buffer, empty pools,
empty sample window, zero time, not scaling up. -/
def initState : BurnerState :=
  { memoryData := 0
    cpuWorkers := 0
    stopChannels := []
    networkWorkers := 0
    networkStopChans := []
    lastScaleAction := 0
    scalingUp := false
    cpuSamples := [] }

/-- `addCPUSample`: append the reading; if the window now exceeds 100
entries, drop the oldest one (`rb.cpuSamples = rb.cpuSamples[1:]`). -/
def addCPUSample (samples : List ℚ) (cpuPercent : ℚ) : List ℚ :=
  let s := samples ++ [cpuPercent]
  if s.length > 100 then s.drop 1 else s

/-- `getCPU95thPercentile`: 0 on an empty window; otherwise sort a copy
ascending and take index `int(math.Ceil(0.95*float64(n))) - 1`, clamped
into `[0, n-1]`.  The ceiling is rendered as the exact
`⌈19n/20⌉ = (19n+19)/20`, which the float computation matches for every
`n ≤ 200` (the window never exceeds 100).  Sorting a copy of the window
ascending yields a unique list of values, so any sort models
`sort.Float64s`. -/
def getCPU95thPercentile (cpuSamples : List ℚ) : ℚ :=
  if cpuSamples.length = 0 then 0
  else
    let samples := cpuSamples.insertionSort (· ≤ ·)
    let n : ℤ := cpuSamples.length
    let index : ℤ := (19 * n + 19) / 20 - 1
    let index : ℤ := if index < 0 then 0 else index
    let index : ℤ := if index ≥ n then n - 1 else index
    samples.getD index.toNat 0

/-- The scale-down loop shared by `adjustCPULoad` and
`adjustNetworkLoad`:
`for i := 0; i < workersToStop && len(chans) > 0; i++`
pops the last stop channel and decrements the worker count.  The fuel
argument is `workersToStop` (the loop body never runs when it is not
positive). -/
def stopLoop : ℕ → ℤ → List Unit → ℤ × List Unit
  | 0, w, chans => (w, chans)
  | n + 1, w, chans =>
      if chans.length > 0 then stopLoop n (w - 1) chans.dropLast
      else (w, chans)

/-- `adjustCPULoad(targetUtilization, currentUtilization)`.
`numCPU` is `runtime.NumCPU()`. -/
def adjustCPULoad (numCPU : ℕ) (targetUtilization currentUtilization : ℚ)
    (st : BurnerState) : BurnerState :=
  let utilizationDiff := targetUtilization - currentUtilization
  let maxWorkers : ℤ := (numCPU : ℤ) * 2
  if utilizationDiff > 10 ∧ st.cpuWorkers < maxWorkers then
    let newWorkers := min (trunc (utilizationDiff / 20)) (maxWorkers - st.cpuWorkers)
    { st with
      stopChannels := st.stopChannels ++ List.replicate newWorkers.toNat ()
      cpuWorkers := st.cpuWorkers + newWorkers.toNat }
  else if utilizationDiff < -10 ∧ st.cpuWorkers > 0 then
    let workersToStop := min st.cpuWorkers (trunc (-utilizationDiff / 20) + 1)
    let res := stopLoop workersToStop.toNat st.cpuWorkers st.stopChannels
    { st with cpuWorkers := res.1, stopChannels := res.2 }
  else st

/-- `adjustMemoryLoad(targetUtilization, currentUtilization)`.  Only the
buffer length is tracked; `len(..)/1024/1024` is ℕ division, the
`int64` size arithmetic is ℤ. -/
def adjustMemoryLoad (maxMemoryMB : ℤ) (targetUtilization currentUtilization : ℚ)
    (st : BurnerState) : BurnerState :=
  let utilizationDiff := targetUtilization - currentUtilization
  if utilizationDiff > 10 then
    let currentSizeMB : ℤ := (st.memoryData / 1024 / 1024 : ℕ)
    let additionalMB : ℤ := trunc (utilizationDiff * 10)
    let newSizeMB : ℤ := min (currentSizeMB + additionalMB) maxMemoryMB
    if newSizeMB > currentSizeMB then
      { st with memoryData := newSizeMB.toNat * 1024 * 1024 }
    else st
  else if utilizationDiff < -10 ∧ st.memoryData > 0 then
    let currentSizeMB : ℤ := (st.memoryData / 1024 / 1024 : ℕ)
    let reductionMB : ℤ := trunc (-utilizationDiff * 10)
    let newSizeMB : ℤ := max 0 (currentSizeMB - reductionMB)
    if newSizeMB < currentSizeMB then
      { st with memoryData := newSizeMB.toNat * 1024 * 1024 }
    else st
  else st

/-- `adjustNetworkLoad(targetMbps, currentMbps)`; the worker cap is the
hard-coded 5. -/
def adjustNetworkLoad (targetMbps currentMbps : ℚ) (st : BurnerState) : BurnerState :=
  let utilizationDiff := targetMbps - currentMbps
  let maxWorkers : ℤ := 5
  if utilizationDiff > 5 ∧ st.networkWorkers < maxWorkers then
    let newWorkers := min (trunc (utilizationDiff / 10) + 1) (maxWorkers - st.networkWorkers)
    { st with
      networkStopChans := st.networkStopChans ++ List.replicate newWorkers.toNat ()
      networkWorkers := st.networkWorkers + newWorkers.toNat }
  else if utilizationDiff < -5 ∧ st.networkWorkers > 0 then
    let workersToStop := min st.networkWorkers (trunc (-utilizationDiff / 10) + 1)
    let res := stopLoop workersToStop.toNat st.networkWorkers st.networkStopChans
    { st with networkWorkers := res.1, networkStopChans := res.2 }
  else st

/-- The graceful-shutdown drain in `main`: signal every CPU and network
stop channel, clear both slices and counts, release the memory buffer. -/
def shutdownDrain (st : BurnerState) : BurnerState :=
  { st with
    stopChannels := []
    cpuWorkers := 0
    networkStopChans := []
    networkWorkers := 0
    memoryData := 0 }

/-- The minimum-floor enforcement block of `monitor` (the three
`if ... below minimum requirement` statements): each violated floor
instructs its pool toward `minimum + buffer`.  The caller enters this
function exactly when at least one floor condition holds
(`needsMinimumEnforcement`). -/
def enforceMinimums (cfg : Config) (numCPU : ℕ)
    (cpuUtil memUtil networkUtil cpu95th : ℚ) (st : BurnerState) : BurnerState :=
  let st2 := if cpu95th < cfg.minCPUUtilization then
    adjustCPULoad numCPU (cfg.minCPUUtilization + 10) cpuUtil st else st
  let st3 := if cfg.enableMemoryUtilization ∧ memUtil < cfg.minMemoryUtilization then
    adjustMemoryLoad cfg.maxMemoryMB (cfg.minMemoryUtilization + 10) memUtil st2 else st2
  let st4 := if networkUtil < cfg.minNetworkUtilizationMbps then
    adjustNetworkLoad (cfg.minNetworkUtilizationMbps + 5) networkUtil st3 else st3
  st4

/-- The target-based adjustment block of `monitor` (the
`NORMAL TARGET-BASED ADJUSTMENTS` section): if any metric deviates from
its reference by more than its deadband, set the scaling direction and
timestamp and invoke the pool adjustments whose deadband was
exceeded. -/
def targetAdjust (cfg : Config) (numCPU : ℕ)
    (cpuUtil memUtil networkUtil : ℚ) (now : ℤ) (st : BurnerState) : BurnerState :=
  let needsCPUAdjustment := |cpuUtil - cfg.targetCPUUtilization| > 10
  let needsMemoryAdjustment :=
    cfg.enableMemoryUtilization ∧ |memUtil - cfg.targetMemoryUtilization| > 10
  let needsNetworkAdjustment := |networkUtil - cfg.minNetworkUtilizationMbps| > 5
  if needsCPUAdjustment ∨ needsMemoryAdjustment ∨ needsNetworkAdjustment then
    let st5 := { st with
      scalingUp := if cpuUtil < cfg.targetCPUUtilization ∨
        memUtil < cfg.targetMemoryUtilization ∨
        networkUtil < cfg.minNetworkUtilizationMbps then true else false
      lastScaleAction := now }
    let st6 := if needsCPUAdjustment then
      adjustCPULoad numCPU cfg.targetCPUUtilization cpuUtil st5 else st5
    let st7 := if needsMemoryAdjustment then
      adjustMemoryLoad cfg.maxMemoryMB cfg.targetMemoryUtilization memUtil st6 else st6
    let st8 := if needsNetworkAdjustment then
      adjustNetworkLoad cfg.minNetworkUtilizationMbps networkUtil st7 else st7
    st8
  else st

/-- One iteration of the `monitor` loop body on a ticker tick.
`metrics` is the result of `getCurrentUtilization` (`none` = error, in
which case the code logs and `continue`s before touching any state);
`netFetch` is the result of `getNetworkUtilization`, whose error is
discarded and whose value is 0 on failure (`none.getD 0`).  `now` is
`time.Now()`. -/
def monitorTick (cfg : Config) (numCPU : ℕ) (st : BurnerState)
    (metrics : Option (ℚ × ℚ)) (netFetch : Option ℚ) (now : ℤ) : BurnerState :=
  match metrics with
  | none => st
  | some (cpuUtil, memUtil) =>
    let st1 := { st with cpuSamples := addCPUSample st.cpuSamples cpuUtil }
    let cpu95th := getCPU95thPercentile st1.cpuSamples
    let networkUtil := netFetch.getD 0
    if st1.scalingUp ∧ now - st1.lastScaleAction < cfg.scaleUpDelay then st1
    else if ¬st1.scalingUp ∧ now - st1.lastScaleAction < cfg.scaleDownDelay then st1
    else if cpu95th < cfg.minCPUUtilization ∨
        (cfg.enableMemoryUtilization ∧ memUtil < cfg.minMemoryUtilization) ∨
        networkUtil < cfg.minNetworkUtilizationMbps then
      { enforceMinimums cfg numCPU cpuUtil memUtil networkUtil cpu95th st1 with
        lastScaleAction := now, scalingUp := true }
    else targetAdjust cfg numCPU cpuUtil memUtil networkUtil now st1

/-- A pool operation on the burner state: the three `adjust*` methods
(arbitrary target/current arguments subsume scale-up, scale-down and
minimum-floor enforcement), a full monitor tick, and the shutdown
drain. -/
inductive Op where
  | cpu (target current : ℚ)
  | mem (target current : ℚ)
  | net (target current : ℚ)
  | tick (metrics : Option (ℚ × ℚ)) (netFetch : Option ℚ) (now : ℤ)
  | shutdown
deriving DecidableEq

/-- Apply one operation to the state. -/
def applyOp (cfg : Config) (numCPU : ℕ) (st : BurnerState) : Op → BurnerState
  | .cpu t c => adjustCPULoad numCPU t c st
  | .mem t c => adjustMemoryLoad cfg.maxMemoryMB t c st
  | .net t c => adjustNetworkLoad t c st
  | .tick m nf now => monitorTick cfg numCPU st m nf now
  | .shutdown => shutdownDrain st

/-- The state reached from the initial state by a sequence of
operations. -/
def runOps (cfg : Config) (numCPU : ℕ) (ops : List Op) : BurnerState :=
  ops.foldl (applyOp cfg numCPU) initState

/-- The inductive invariant of the pool state: worker counts are
nonnegative and capped, each stop-channel slice has exactly one entry
per worker, and (for a nonnegative configured ceiling) the memory
buffer never exceeds `maxMemoryMB` megabytes. -/
def Inv (cfg : Config) (numCPU : ℕ) (st : BurnerState) : Prop :=
  0 ≤ st.cpuWorkers ∧ st.cpuWorkers ≤ (numCPU : ℤ) * 2 ∧
  (st.stopChannels.length : ℤ) = st.cpuWorkers ∧
  0 ≤ st.networkWorkers ∧ st.networkWorkers ≤ 5 ∧
  (st.networkStopChans.length : ℤ) = st.networkWorkers ∧
  (0 ≤ cfg.maxMemoryMB → (st.memoryData : ℤ) ≤ cfg.maxMemoryMB * 1024 * 1024)

end GoBurn

/-! ## The sample window (C4) -/

namespace GoBurn

/-- One `addCPUSample` step on a window that is the 100-suffix of the
history `L` yields the 100-suffix of `L ++ [x]`. -/
lemma addCPUSample_drop (L : List ℚ) (x : ℚ) :
    addCPUSample (L.drop (L.length - 100)) x =
      (L ++ [x]).drop ((L ++ [x]).length - 100) := by
  unfold addCPUSample
  rcases le_or_lt L.length 99 with h | h
  · rw [Nat.sub_eq_zero_of_le (by omega), if_neg]
    · rw [List.drop_zero, List.length_append]
      rw [Nat.sub_eq_zero_of_le (by simpa using by omega), List.drop_zero]
    · rw [List.drop_zero, List.length_append]
      simp only [List.length_singleton]
      omega
  · have hlen : (L.drop (L.length - 100)).length = 100 := by
      rw [List.length_drop]; omega
    rw [if_pos (by rw [List.length_append, hlen]; norm_num)]
    rw [List.drop_append_eq_append_drop, List.drop_append_eq_append_drop,
      List.drop_drop, hlen, List.length_append, List.length_singleton]
    have e1 : L.length - 100 + 1 = L.length + 1 - 100 := by omega
    have e2 : (1 : ℕ) - 100 = 0 := by omega
    have e3 : L.length + 1 - 100 - L.length = 0 := by omega
    rw [e1, e2, e3]

/-- Folding `addCPUSample` over new readings, starting from the
100-suffix of the history, yields the 100-suffix of the extended
history. -/
lemma foldl_addCPUSample (xs L : List ℚ) :
    List.foldl addCPUSample (L.drop (L.length - 100)) xs =
      (L ++ xs).drop ((L ++ xs).length - 100) := by
  induction xs generalizing L with
  | nil => simp
  | cons x xs ih =>
    rw [List.foldl_cons, addCPUSample_drop]
    have h := ih (L ++ [x])
    rw [List.append_assoc] at h
    simpa using h

/-- C4: the window produced by any sequence of `addCPUSample` calls
never exceeds 100 entries, equals the 100-suffix of the inserted
sequence (FIFO eviction of exactly the oldest entry), and once more
than 100 samples have been inserted the oldest retained sample is the
`(count - 100)`-th inserted value (zero-indexed). -/
theorem addSample_window_fifo (xs : List ℚ) :
    (List.foldl addCPUSample [] xs).length ≤ 100 ∧
    List.foldl addCPUSample [] xs = xs.drop (xs.length - 100) ∧
    (100 < xs.length →
      (List.foldl addCPUSample [] xs).head? = xs[xs.length - 100]?) := by
  have h := foldl_addCPUSample xs []
  simp only [List.nil_append, List.length_nil, Nat.zero_sub, List.drop_zero] at h
  refine ⟨?_, h, fun _ => ?_⟩
  · rw [h, List.length_drop]; omega
  · rw [h, List.head?_drop]

/-- Witness for C4 at a concrete 101-element insertion sequence. -/
theorem addSample_window_fifo_witness :
    100 < (List.replicate 101 (7 : ℚ)).length ∧
    (List.foldl addCPUSample [] (List.replicate 101 (7 : ℚ))).head? =
      (List.replicate 101 (7 : ℚ))[(List.replicate 101 (7 : ℚ)).length - 100]? :=
  ⟨by decide, (addSample_window_fifo (List.replicate 101 (7 : ℚ))).2.2 (by decide)⟩

/-! ## The 95th percentile (C3) -/

/-- C3: `getCPU95thPercentile` returns 0 on an empty window, 100 on the
ten-element window [10,20,...,100], 95 on the twenty-element window
[5,10,...,100]; and on any non-empty window of `count` elements the
index `ceil(0.95*count) - 1 = (19*count+19)/20 - 1` already lies in
`[0, count-1]` (the clamps are no-ops) and the result is the element at
that index of an ascending-sorted copy of the window. -/
theorem percentile95_correct :
    getCPU95thPercentile [] = 0 ∧
    getCPU95thPercentile [10, 20, 30, 40, 50, 60, 70, 80, 90, 100] = 100 ∧
    getCPU95thPercentile
      [5, 10, 15, 20, 25, 30, 35, 40, 45, 50,
       55, 60, 65, 70, 75, 80, 85, 90, 95, 100] = 95 ∧
    ∀ s : List ℚ, s ≠ [] →
      (19 * s.length + 19) / 20 - 1 < s.length ∧
      getCPU95thPercentile s =
        (s.insertionSort (· ≤ ·)).getD ((19 * s.length + 19) / 20 - 1) 0 := by
  refine ⟨by decide, by decide, by decide, fun s hs => ?_⟩
  have hn : 0 < s.length := List.length_pos.2 hs
  refine ⟨by omega, ?_⟩
  have hne : ¬ s.length = 0 := by omega
  have h1 : ¬ ((19 * (s.length : ℤ) + 19) / 20 - 1 < 0) := by omega
  have h2 : ¬ ((19 * (s.length : ℤ) + 19) / 20 - 1 ≥ (s.length : ℤ)) := by omega
  simp only [getCPU95thPercentile, if_neg hne, if_neg h1, if_neg h2]
  congr 1
  omega

/-- Witness for C3's general clause at the concrete window [3,1,2]. -/
theorem percentile95_correct_witness :
    ([3, 1, 2] : List ℚ) ≠ [] ∧
    ((19 * ([3, 1, 2] : List ℚ).length + 19) / 20 - 1 < ([3, 1, 2] : List ℚ).length ∧
     getCPU95thPercentile [3, 1, 2] =
       (([3, 1, 2] : List ℚ).insertionSort (· ≤ ·)).getD
         ((19 * ([3, 1, 2] : List ℚ).length + 19) / 20 - 1) 0) :=
  ⟨by decide, percentile95_correct.2.2.2 [3, 1, 2] (by decide)⟩

end GoBurn

/-! ## Pool invariants (C2, C8) -/

namespace GoBurn

/-- The scale-down loop never increases the worker count. -/
lemma stopLoop_fst_le : ∀ (n : ℕ) (w : ℤ) (chans : List Unit),
    (stopLoop n w chans).1 ≤ w
  | 0, w, _ => le_refl w
  | n + 1, w, chans => by
    unfold stopLoop
    split
    · exact (stopLoop_fst_le n (w - 1) chans.dropLast).trans (by omega)
    · exact le_refl w

/-- The scale-down loop decrements the worker count at most `n` times. -/
lemma stopLoop_fst_ge : ∀ (n : ℕ) (w : ℤ) (chans : List Unit),
    w - n ≤ (stopLoop n w chans).1
  | 0, w, _ => by show w - ((0 : ℕ) : ℤ) ≤ w; omega
  | n + 1, w, chans => by
    unfold stopLoop
    split
    · have := stopLoop_fst_ge n (w - 1) chans.dropLast
      push_cast at this ⊢
      omega
    · omega

/-- The scale-down loop keeps the stop-channel slice in lockstep with
the worker count. -/
lemma stopLoop_len : ∀ (n : ℕ) (w : ℤ) (chans : List Unit),
    (chans.length : ℤ) = w →
    ((stopLoop n w chans).2.length : ℤ) = (stopLoop n w chans).1
  | 0, _, _, h => h
  | n + 1, w, chans, h => by
    unfold stopLoop
    split
    · next hpos =>
      apply stopLoop_len n (w - 1) chans.dropLast
      rw [List.length_dropLast]
      omega
    · exact h

/-- `adjustCPULoad` preserves the state invariant. -/
lemma inv_adjustCPULoad (cfg : Config) (numCPU : ℕ) (t c : ℚ) (st : BurnerState)
    (h : Inv cfg numCPU st) : Inv cfg numCPU (adjustCPULoad numCPU t c st) := by
  obtain ⟨h1, h2, h3, h4, h5, h6, h7⟩ := h
  simp only [adjustCPULoad]
  split
  · next hc =>
    refine ⟨?_, ?_, ?_, h4, h5, h6, h7⟩
    · show (0 : ℤ) ≤ st.cpuWorkers + _
      omega
    · show st.cpuWorkers + (min (trunc ((t - c) / 20)) ((numCPU : ℤ) * 2 - st.cpuWorkers)).toNat
        ≤ (numCPU : ℤ) * 2
      have := hc.2
      omega
    · show ((st.stopChannels ++ List.replicate _ ()).length : ℤ) = st.cpuWorkers + _
      rw [List.length_append, List.length_replicate]
      omega
  split
  · have hlen := stopLoop_len
      (min st.cpuWorkers (trunc (-(t - c) / 20) + 1)).toNat st.cpuWorkers st.stopChannels h3
    have hle := stopLoop_fst_le
      (min st.cpuWorkers (trunc (-(t - c) / 20) + 1)).toNat st.cpuWorkers st.stopChannels
    refine ⟨?_, ?_, hlen, h4, h5, h6, h7⟩ <;> dsimp only <;> omega
  · exact ⟨h1, h2, h3, h4, h5, h6, h7⟩

/-- `adjustNetworkLoad` preserves the state invariant. -/
lemma inv_adjustNetworkLoad (cfg : Config) (numCPU : ℕ) (t c : ℚ) (st : BurnerState)
    (h : Inv cfg numCPU st) : Inv cfg numCPU (adjustNetworkLoad t c st) := by
  obtain ⟨h1, h2, h3, h4, h5, h6, h7⟩ := h
  simp only [adjustNetworkLoad]
  split
  · next hc =>
    refine ⟨h1, h2, h3, ?_, ?_, ?_, h7⟩
    · show (0 : ℤ) ≤ st.networkWorkers + _
      omega
    · show st.networkWorkers + (min (trunc ((t - c) / 10) + 1) (5 - st.networkWorkers)).toNat
        ≤ (5 : ℤ)
      have := hc.2
      omega
    · show ((st.networkStopChans ++ List.replicate _ ()).length : ℤ) = st.networkWorkers + _
      rw [List.length_append, List.length_replicate]
      omega
  split
  · have hlen := stopLoop_len
      (min st.networkWorkers (trunc (-(t - c) / 10) + 1)).toNat st.networkWorkers
      st.networkStopChans h6
    have hle := stopLoop_fst_le
      (min st.networkWorkers (trunc (-(t - c) / 10) + 1)).toNat st.networkWorkers
      st.networkStopChans
    refine ⟨h1, h2, h3, ?_, ?_, hlen, h7⟩ <;> dsimp only <;> omega
  · exact ⟨h1, h2, h3, h4, h5, h6, h7⟩

/-- `adjustMemoryLoad` preserves the state invariant. -/
lemma inv_adjustMemoryLoad (cfg : Config) (numCPU : ℕ) (t c : ℚ) (st : BurnerState)
    (h : Inv cfg numCPU st) : Inv cfg numCPU (adjustMemoryLoad cfg.maxMemoryMB t c st) := by
  obtain ⟨h1, h2, h3, h4, h5, h6, h7⟩ := h
  simp only [adjustMemoryLoad]
  split
  · split
    · next hguard =>
      refine ⟨h1, h2, h3, h4, h5, h6, fun hmax => ?_⟩
      show (((min ((st.memoryData / 1024 / 1024 : ℕ) + trunc ((t - c) * 10))
        cfg.maxMemoryMB).toNat * 1024 * 1024 : ℕ) : ℤ) ≤ cfg.maxMemoryMB * 1024 * 1024
      omega
    · exact ⟨h1, h2, h3, h4, h5, h6, h7⟩
  split
  · split
    · next hguard =>
      refine ⟨h1, h2, h3, h4, h5, h6, fun hmax => ?_⟩
      have hb := h7 hmax
      show (((max 0 ((st.memoryData / 1024 / 1024 : ℕ) - trunc (-(t - c) * 10))).toNat
        * 1024 * 1024 : ℕ) : ℤ) ≤ cfg.maxMemoryMB * 1024 * 1024
      omega
    · exact ⟨h1, h2, h3, h4, h5, h6, h7⟩
  · exact ⟨h1, h2, h3, h4, h5, h6, h7⟩

/-- The shutdown drain preserves the state invariant. -/
lemma inv_shutdownDrain (cfg : Config) (numCPU : ℕ) (st : BurnerState)
    (_h : Inv cfg numCPU st) : Inv cfg numCPU (shutdownDrain st) := by
  refine ⟨le_refl 0, ?_, ?_, le_refl 0, ?_, ?_, fun hmax => ?_⟩
  · show (0 : ℤ) ≤ (numCPU : ℤ) * 2
    positivity
  · show ((List.length ([] : List Unit) : ℕ) : ℤ) = 0
    simp
  · show (0 : ℤ) ≤ 5
    omega
  · show ((List.length ([] : List Unit) : ℕ) : ℤ) = 0
    simp
  · show ((0 : ℕ) : ℤ) ≤ cfg.maxMemoryMB * 1024 * 1024
    omega

/-- Updating the scaling state preserves the invariant (it mentions no
scaling-state field). -/
lemma inv_setScaling (cfg : Config) (numCPU : ℕ) (st : BurnerState) (la : ℤ) (su : Bool)
    (h : Inv cfg numCPU st) :
    Inv cfg numCPU { st with lastScaleAction := la, scalingUp := su } := h

/-- A conditional application of an invariant-preserving function
preserves the invariant. -/
lemma inv_ite (cfg : Config) (numCPU : ℕ) (P : Prop) [Decidable P]
    (f : BurnerState → BurnerState) (st : BurnerState)
    (hf : ∀ s, Inv cfg numCPU s → Inv cfg numCPU (f s)) (h : Inv cfg numCPU st) :
    Inv cfg numCPU (if P then f st else st) := by
  split
  · exact hf st h
  · exact h

end GoBurn

namespace GoBurn

/-- A monitor tick preserves the state invariant. -/
lemma inv_monitorTick (cfg : Config) (numCPU : ℕ) (st : BurnerState)
    (m : Option (ℚ × ℚ)) (nf : Option ℚ) (now : ℤ)
    (h : Inv cfg numCPU st) : Inv cfg numCPU (monitorTick cfg numCPU st m nf now) := by
  rcases m with _ | ⟨cpuUtil, memUtil⟩
  · exact h
  · have hst1 : Inv cfg numCPU { st with cpuSamples := addCPUSample st.cpuSamples cpuUtil } := h
    have henf : ∀ (c mu nw p95 : ℚ) (s : BurnerState), Inv cfg numCPU s →
        Inv cfg numCPU (enforceMinimums cfg numCPU c mu nw p95 s) := by
      intro c mu nw p95 s hs
      simp only [enforceMinimums]
      apply inv_ite _ _ _ _ _ (fun s hs => inv_adjustNetworkLoad cfg numCPU _ _ s hs)
      apply inv_ite _ _ _ _ _ (fun s hs => inv_adjustMemoryLoad cfg numCPU _ _ s hs)
      apply inv_ite _ _ _ _ _ (fun s hs => inv_adjustCPULoad cfg numCPU _ _ s hs)
      exact hs
    have htgt : ∀ (c mu nw : ℚ) (s : BurnerState), Inv cfg numCPU s →
        Inv cfg numCPU (targetAdjust cfg numCPU c mu nw now s) := by
      intro c mu nw s hs
      simp only [targetAdjust]
      split
      · apply inv_ite _ _ _ _ _ (fun s hs => inv_adjustNetworkLoad cfg numCPU _ _ s hs)
        apply inv_ite _ _ _ _ _ (fun s hs => inv_adjustMemoryLoad cfg numCPU _ _ s hs)
        apply inv_ite _ _ _ _ _ (fun s hs => inv_adjustCPULoad cfg numCPU _ _ s hs)
        exact inv_setScaling _ _ _ _ _ hs
      · exact hs
    simp only [monitorTick]
    split
    · exact hst1
    split
    · exact hst1
    split
    · exact inv_setScaling _ _ _ _ _ (henf _ _ _ _ _ hst1)
    · exact htgt _ _ _ _ hst1

/-- Every operation preserves the state invariant. -/
lemma inv_applyOp (cfg : Config) (numCPU : ℕ) (st : BurnerState) (op : Op)
    (h : Inv cfg numCPU st) : Inv cfg numCPU (applyOp cfg numCPU st op) := by
  cases op with
  | cpu t c => exact inv_adjustCPULoad cfg numCPU t c st h
  | mem t c => exact inv_adjustMemoryLoad cfg numCPU t c st h
  | net t c => exact inv_adjustNetworkLoad cfg numCPU t c st h
  | tick m nf now => exact inv_monitorTick cfg numCPU st m nf now h
  | shutdown => exact inv_shutdownDrain cfg numCPU st h

/-- The initial state satisfies the invariant. -/
lemma inv_initState (cfg : Config) (numCPU : ℕ) : Inv cfg numCPU initState := by
  refine ⟨le_refl 0, ?_, ?_, le_refl 0, ?_, ?_, fun hmax => ?_⟩
  · show (0 : ℤ) ≤ (numCPU : ℤ) * 2
    positivity
  · show ((List.length ([] : List Unit) : ℕ) : ℤ) = 0
    simp
  · show (0 : ℤ) ≤ 5
    omega
  · show ((List.length ([] : List Unit) : ℕ) : ℤ) = 0
    simp
  · show ((0 : ℕ) : ℤ) ≤ cfg.maxMemoryMB * 1024 * 1024
    omega

/-- The invariant holds along every operation sequence. -/
lemma inv_foldl (cfg : Config) (numCPU : ℕ) (ops : List Op) :
    ∀ st : BurnerState, Inv cfg numCPU st →
      Inv cfg numCPU (List.foldl (applyOp cfg numCPU) st ops) := by
  induction ops with
  | nil => exact fun _ h => h
  | cons op ops ih => exact fun st h => ih _ (inv_applyOp cfg numCPU st op h)

/-- The invariant holds in every reachable state. -/
lemma inv_runOps (cfg : Config) (numCPU : ℕ) (ops : List Op) :
    Inv cfg numCPU (runOps cfg numCPU ops) :=
  inv_foldl cfg numCPU ops initState (inv_initState cfg numCPU)

/-- C2: in every state reachable by any sequence of pool operations
(scale-up, scale-down, minimum-floor enforcement, monitor ticks,
shutdown) under a configuration with a nonnegative memory ceiling, the
CPU pool count never exceeds 2 x the logical processor count, the
network pool count never exceeds 5, and the memory buffer length never
exceeds `maxMemoryMB` megabytes. -/
theorem pool_counts_bounded (cfg : Config) (numCPU : ℕ) (ops : List Op)
    (hmax : 0 ≤ cfg.maxMemoryMB) :
    (runOps cfg numCPU ops).cpuWorkers ≤ (numCPU : ℤ) * 2 ∧
    (runOps cfg numCPU ops).networkWorkers ≤ 5 ∧
    ((runOps cfg numCPU ops).memoryData : ℤ) ≤ cfg.maxMemoryMB * 1024 * 1024 := by
  obtain ⟨-, h2, -, -, h5, -, h7⟩ := inv_runOps cfg numCPU ops
  exact ⟨h2, h5, h7 hmax⟩

/-- Witness for C2 at a concrete operation sequence (a big scale-up
request, a monitor tick, a scale-down request and a shutdown) on the
default configuration with 2 processors. -/
theorem pool_counts_bounded_witness :
    0 ≤ cfgDefault.maxMemoryMB ∧
    ((runOps cfgDefault 2 [Op.cpu 80 10, Op.net 40 0, Op.mem 80 0,
        Op.tick (some (15, 80)) (some 25) 200, Op.shutdown]).cpuWorkers ≤ ((2 : ℕ) : ℤ) * 2 ∧
     (runOps cfgDefault 2 [Op.cpu 80 10, Op.net 40 0, Op.mem 80 0,
        Op.tick (some (15, 80)) (some 25) 200, Op.shutdown]).networkWorkers ≤ 5 ∧
     ((runOps cfgDefault 2 [Op.cpu 80 10, Op.net 40 0, Op.mem 80 0,
        Op.tick (some (15, 80)) (some 25) 200, Op.shutdown]).memoryData : ℤ) ≤
       cfgDefault.maxMemoryMB * 1024 * 1024) :=
  ⟨by decide, pool_counts_bounded cfgDefault 2
    [Op.cpu 80 10, Op.net 40 0, Op.mem 80 0,
     Op.tick (some (15, 80)) (some 25) 200, Op.shutdown] (by decide)⟩

/-- C8: in every state reachable by any sequence of pool operations,
the CPU stop-channel list length equals the CPU worker count and the
network stop-channel list length equals the network worker count. -/
theorem stop_channels_match_counts (cfg : Config) (numCPU : ℕ) (ops : List Op) :
    ((runOps cfg numCPU ops).stopChannels.length : ℤ) = (runOps cfg numCPU ops).cpuWorkers ∧
    ((runOps cfg numCPU ops).networkStopChans.length : ℤ) =
      (runOps cfg numCPU ops).networkWorkers := by
  obtain ⟨-, -, h3, -, -, h6, -⟩ := inv_runOps cfg numCPU ops
  exact ⟨h3, h6⟩

end GoBurn

/-! ## Frame lemmas: each adjustment touches only its own pool -/

namespace GoBurn

/-- `adjustCPULoad` mutates only the CPU pool fields. -/
lemma adjustCPULoad_frame (numCPU : ℕ) (t c : ℚ) (st : BurnerState) :
    (adjustCPULoad numCPU t c st).memoryData = st.memoryData ∧
    (adjustCPULoad numCPU t c st).networkWorkers = st.networkWorkers ∧
    (adjustCPULoad numCPU t c st).networkStopChans = st.networkStopChans ∧
    (adjustCPULoad numCPU t c st).lastScaleAction = st.lastScaleAction ∧
    (adjustCPULoad numCPU t c st).scalingUp = st.scalingUp ∧
    (adjustCPULoad numCPU t c st).cpuSamples = st.cpuSamples := by
  simp only [adjustCPULoad]
  split
  · exact ⟨rfl, rfl, rfl, rfl, rfl, rfl⟩
  split
  · exact ⟨rfl, rfl, rfl, rfl, rfl, rfl⟩
  · exact ⟨rfl, rfl, rfl, rfl, rfl, rfl⟩

/-- `adjustMemoryLoad` mutates only the memory buffer. -/
lemma adjustMemoryLoad_frame (m : ℤ) (t c : ℚ) (st : BurnerState) :
    (adjustMemoryLoad m t c st).cpuWorkers = st.cpuWorkers ∧
    (adjustMemoryLoad m t c st).stopChannels = st.stopChannels ∧
    (adjustMemoryLoad m t c st).networkWorkers = st.networkWorkers ∧
    (adjustMemoryLoad m t c st).networkStopChans = st.networkStopChans ∧
    (adjustMemoryLoad m t c st).lastScaleAction = st.lastScaleAction ∧
    (adjustMemoryLoad m t c st).scalingUp = st.scalingUp ∧
    (adjustMemoryLoad m t c st).cpuSamples = st.cpuSamples := by
  simp only [adjustMemoryLoad]
  split
  · split
    · exact ⟨rfl, rfl, rfl, rfl, rfl, rfl, rfl⟩
    · exact ⟨rfl, rfl, rfl, rfl, rfl, rfl, rfl⟩
  split
  · split
    · exact ⟨rfl, rfl, rfl, rfl, rfl, rfl, rfl⟩
    · exact ⟨rfl, rfl, rfl, rfl, rfl, rfl, rfl⟩
  · exact ⟨rfl, rfl, rfl, rfl, rfl, rfl, rfl⟩

/-- `adjustNetworkLoad` mutates only the network pool fields. -/
lemma adjustNetworkLoad_frame (t c : ℚ) (st : BurnerState) :
    (adjustNetworkLoad t c st).memoryData = st.memoryData ∧
    (adjustNetworkLoad t c st).cpuWorkers = st.cpuWorkers ∧
    (adjustNetworkLoad t c st).stopChannels = st.stopChannels ∧
    (adjustNetworkLoad t c st).lastScaleAction = st.lastScaleAction ∧
    (adjustNetworkLoad t c st).scalingUp = st.scalingUp ∧
    (adjustNetworkLoad t c st).cpuSamples = st.cpuSamples := by
  simp only [adjustNetworkLoad]
  split
  · exact ⟨rfl, rfl, rfl, rfl, rfl, rfl⟩
  split
  · exact ⟨rfl, rfl, rfl, rfl, rfl, rfl⟩
  · exact ⟨rfl, rfl, rfl, rfl, rfl, rfl⟩

end GoBurn

/-! ## Error handling on a tick (C7) -/

namespace GoBurn

/-- C7: a failed CPU/memory metrics fetch makes the tick a complete
no-op (the code logs and `continue`s before touching any state), and a
failed network-utilization fetch is equivalent to a successful fetch
reading 0 (the error is discarded and the zero value used). -/
theorem tick_fetch_error_handling (cfg : Config) (numCPU : ℕ) (st : BurnerState)
    (netFetch : Option ℚ) (now : ℤ) (cpuUtil memUtil : ℚ) :
    monitorTick cfg numCPU st none netFetch now = st ∧
    monitorTick cfg numCPU st (some (cpuUtil, memUtil)) none now =
      monitorTick cfg numCPU st (some (cpuUtil, memUtil)) (some 0) now :=
  ⟨rfl, rfl⟩

end GoBurn

/-! ## Small scale-up requests add no workers (C9) -/

namespace GoBurn

/-- C9: when the utilization difference is strictly between the
deadband (10) and 20 and the CPU pool is below capacity, the scale-up
branch is taken but `int(diff/20) = 0` workers are added: the pool is
unchanged.  In particular a single enforcement call toward
`minimum + 10` from a utilization within 20 points of that target adds
no workers. -/
theorem cpu_scale_up_small_diff_no_op (numCPU : ℕ) (target current : ℚ)
    (st : BurnerState)
    (h1 : 10 < target - current) (h2 : target - current < 20)
    (hcap : st.cpuWorkers < (numCPU : ℤ) * 2) :
    (adjustCPULoad numCPU target current st).cpuWorkers = st.cpuWorkers ∧
    (adjustCPULoad numCPU target current st).stopChannels = st.stopChannels := by
  have hd : (0 : ℚ) ≤ (target - current) / 20 := by
    apply div_nonneg <;> linarith
  have hlt : (target - current) / 20 < 1 :=
    (div_lt_one (by norm_num : (0 : ℚ) < 20)).mpr h2
  have htr : trunc ((target - current) / 20) = 0 := by
    unfold trunc
    rw [if_pos hd]
    exact Int.floor_eq_zero_iff.mpr (Set.mem_Ico.mpr ⟨hd, hlt⟩)
  simp only [adjustCPULoad]
  rw [if_pos ⟨h1, hcap⟩, htr, min_eq_left (by omega)]
  constructor <;> simp

/-- Witness for C9: the enforcement call toward 30 from utilization 15
(difference 15) on the default 4-processor empty state adds nothing. -/
theorem cpu_scale_up_small_diff_no_op_witness :
    (10 < (30 : ℚ) - 15 ∧ (30 : ℚ) - 15 < 20 ∧ initState.cpuWorkers < ((4 : ℕ) : ℤ) * 2) ∧
    (adjustCPULoad 4 30 15 initState).cpuWorkers = initState.cpuWorkers ∧
    (adjustCPULoad 4 30 15 initState).stopChannels = initState.stopChannels :=
  ⟨⟨by norm_num, by norm_num, by norm_num [initState]⟩,
   cpu_scale_up_small_diff_no_op 4 30 15 initState (by norm_num) (by norm_num)
     (by norm_num [initState])⟩

end GoBurn

/-! ## Cooldown hysteresis (C5) -/

namespace GoBurn

/-- C5: while the cooldown matching the current scaling direction has
not elapsed, a tick changes nothing except appending the CPU sample
(which the code does before the gate): pool counts, stop channels,
memory buffer, action timestamp and direction flag are all untouched.
Once the applicable cooldown has elapsed, a tick whose conditions
warrant an action (here: the CPU 95th-percentile floor is violated)
records a new action timestamp and direction. -/
theorem cooldown_gate_hysteresis (cfg : Config) (numCPU : ℕ) (st : BurnerState)
    (cpuUtil memUtil : ℚ) (netFetch : Option ℚ) (now : ℤ) :
    (st.scalingUp = true → now - st.lastScaleAction < cfg.scaleUpDelay →
      monitorTick cfg numCPU st (some (cpuUtil, memUtil)) netFetch now =
        { st with cpuSamples := addCPUSample st.cpuSamples cpuUtil }) ∧
    (st.scalingUp = false → now - st.lastScaleAction < cfg.scaleDownDelay →
      monitorTick cfg numCPU st (some (cpuUtil, memUtil)) netFetch now =
        { st with cpuSamples := addCPUSample st.cpuSamples cpuUtil }) ∧
    ((st.scalingUp = true → cfg.scaleUpDelay ≤ now - st.lastScaleAction) →
     (st.scalingUp = false → cfg.scaleDownDelay ≤ now - st.lastScaleAction) →
     getCPU95thPercentile (addCPUSample st.cpuSamples cpuUtil) < cfg.minCPUUtilization →
     (monitorTick cfg numCPU st (some (cpuUtil, memUtil)) netFetch now).lastScaleAction = now ∧
     (monitorTick cfg numCPU st (some (cpuUtil, memUtil)) netFetch now).scalingUp = true) := by
  refine ⟨fun hsu hlt => ?_, fun hsu hlt => ?_, fun hg1 hg2 hfloor => ?_⟩
  · simp only [monitorTick, if_pos (show st.scalingUp = true ∧
      now - st.lastScaleAction < cfg.scaleUpDelay from ⟨hsu, hlt⟩)]
  · have hn1 : ¬ (st.scalingUp = true ∧ now - st.lastScaleAction < cfg.scaleUpDelay) := by
      simp [hsu]
    simp only [monitorTick, if_neg hn1, if_pos (show ¬ st.scalingUp = true ∧
      now - st.lastScaleAction < cfg.scaleDownDelay from ⟨by simp [hsu], hlt⟩)]
  · have hn1 : ¬ (st.scalingUp = true ∧ now - st.lastScaleAction < cfg.scaleUpDelay) := by
      rintro ⟨hs, hlt2⟩
      exact absurd hlt2 (not_lt.mpr (hg1 hs))
    have hn2 : ¬ (¬ st.scalingUp = true ∧ now - st.lastScaleAction < cfg.scaleDownDelay) := by
      rintro ⟨hns, hlt2⟩
      have hf : st.scalingUp = false := by
        cases h : st.scalingUp
        · rfl
        · exact absurd h hns
      exact absurd hlt2 (not_lt.mpr (hg2 hf))
    constructor <;>
      simp only [monitorTick, if_neg hn1, if_neg hn2, if_pos (Or.inl hfloor)]

/-- A state in cooldown used to witness C5. -/
def stCooldown : BurnerState := { initState with scalingUp := true }

/-- Witness for C5: a tick at time 30 with a scale-up action at time 0
and a 60-unit scale-up cooldown leaves everything but the sample window
unchanged. -/
theorem cooldown_gate_hysteresis_witness :
    stCooldown.scalingUp = true ∧
    (30 : ℤ) - stCooldown.lastScaleAction < cfgDefault.scaleUpDelay ∧
    monitorTick cfgDefault 4 stCooldown (some (15, 80)) (some 25) 30 =
      { stCooldown with cpuSamples := addCPUSample stCooldown.cpuSamples 15 } :=
  ⟨rfl, by decide,
    (cooldown_gate_hysteresis cfgDefault 4 stCooldown 15 80 (some 25) 30).1 rfl (by decide)⟩

end GoBurn

/-! ## Target-based scale-down (C6) -/

namespace GoBurn

/-- A conditional memory adjustment never changes the CPU worker
count. -/
lemma ite_memAdjust_cpuWorkers (P : Prop) [Decidable P] (m : ℤ) (t c : ℚ)
    (s : BurnerState) :
    (if P then adjustMemoryLoad m t c s else s).cpuWorkers = s.cpuWorkers := by
  split
  · exact (adjustMemoryLoad_frame m t c s).1
  · rfl

/-- A conditional network adjustment never changes the CPU worker
count. -/
lemma ite_netAdjust_cpuWorkers (P : Prop) [Decidable P] (t c : ℚ) (s : BurnerState) :
    (if P then adjustNetworkLoad t c s else s).cpuWorkers = s.cpuWorkers := by
  split
  · exact (adjustNetworkLoad_frame t c s).2.1
  · rfl

/-- A conditional CPU adjustment never changes the memory buffer. -/
lemma ite_cpuAdjust_memoryData (P : Prop) [Decidable P] (numCPU : ℕ) (t c : ℚ)
    (s : BurnerState) :
    (if P then adjustCPULoad numCPU t c s else s).memoryData = s.memoryData := by
  split
  · exact (adjustCPULoad_frame numCPU t c s).1
  · rfl

/-- A conditional network adjustment never changes the memory buffer. -/
lemma ite_netAdjust_memoryData (P : Prop) [Decidable P] (t c : ℚ) (s : BurnerState) :
    (if P then adjustNetworkLoad t c s else s).memoryData = s.memoryData := by
  split
  · exact (adjustNetworkLoad_frame t c s).1
  · rfl

/-- A conditional CPU adjustment never changes the direction flag. -/
lemma ite_cpuAdjust_scalingUp (P : Prop) [Decidable P] (numCPU : ℕ) (t c : ℚ)
    (s : BurnerState) :
    (if P then adjustCPULoad numCPU t c s else s).scalingUp = s.scalingUp := by
  split
  · exact (adjustCPULoad_frame numCPU t c s).2.2.2.2.1
  · rfl

/-- A conditional network adjustment never changes the direction
flag. -/
lemma ite_netAdjust_scalingUp (P : Prop) [Decidable P] (t c : ℚ) (s : BurnerState) :
    (if P then adjustNetworkLoad t c s else s).scalingUp = s.scalingUp := by
  split
  · exact (adjustNetworkLoad_frame t c s).2.2.2.2.1
  · rfl

/-- One iteration of the scale-down loop on a nonempty channel list
removes exactly one worker. -/
lemma stopLoop_one (w : ℤ) (chans : List Unit) (h : 0 < chans.length) :
    (stopLoop 1 w chans).1 = w - 1 := by
  show (stopLoop (0 + 1) w chans).1 = w - 1
  simp only [stopLoop, if_pos h]

/-- When the utilization difference lies strictly between -20 and the
lower deadband -10 and the pool is nonempty (with channels matching
workers), the scale-down branch stops exactly
`min(count, int(diff/20)+1) = 1` worker. -/
lemma adjustCPULoad_small_down (numCPU : ℕ) (t c : ℚ) (st : BurnerState)
    (hd1 : t - c < -10) (hd2 : -20 < t - c)
    (hw : 0 < st.cpuWorkers) (hlen : (st.stopChannels.length : ℤ) = st.cpuWorkers) :
    (adjustCPULoad numCPU t c st).cpuWorkers = st.cpuWorkers - 1 := by
  have hn1 : ¬ (t - c > 10 ∧ st.cpuWorkers < (numCPU : ℤ) * 2) := by
    rintro ⟨h, -⟩
    linarith
  have hdn : (0 : ℚ) ≤ -(t - c) / 20 := by
    apply div_nonneg <;> linarith
  have htr : trunc (-(t - c) / 20) = 0 := by
    unfold trunc
    rw [if_pos hdn]
    refine Int.floor_eq_zero_iff.mpr (Set.mem_Ico.mpr ⟨hdn, ?_⟩)
    rw [div_lt_one (by norm_num : (0 : ℚ) < 20)]
    linarith
  have hmin : (min st.cpuWorkers (trunc (-(t - c) / 20) + 1)).toNat = 1 := by
    rw [htr]
    omega
  have hpos : 0 < st.stopChannels.length := by omega
  simp only [adjustCPULoad, if_neg hn1, if_pos (show t - c < -10 ∧ st.cpuWorkers > 0
    from ⟨hd1, hw⟩), hmin]
  exact stopLoop_one st.cpuWorkers st.stopChannels hpos

/-- C6: on a tick with current CPU utilization 95 against target 80
(deadband 10), no cooldown pending, no minimum floor violated, and a
nonzero CPU pool whose stop channels match its count, the CPU pool
count strictly decreases. -/
theorem target_scale_down_decreases_cpu (cfg : Config) (numCPU : ℕ) (st : BurnerState)
    (memUtil netU : ℚ) (now : ℤ)
    (hT : cfg.targetCPUUtilization = 80)
    (hg1 : st.scalingUp = true → cfg.scaleUpDelay ≤ now - st.lastScaleAction)
    (hg2 : st.scalingUp = false → cfg.scaleDownDelay ≤ now - st.lastScaleAction)
    (hf1 : ¬ getCPU95thPercentile (addCPUSample st.cpuSamples 95) < cfg.minCPUUtilization)
    (hf2 : ¬ (cfg.enableMemoryUtilization = true ∧ memUtil < cfg.minMemoryUtilization))
    (hf3 : ¬ netU < cfg.minNetworkUtilizationMbps)
    (hw : 0 < st.cpuWorkers)
    (hlen : (st.stopChannels.length : ℤ) = st.cpuWorkers) :
    (monitorTick cfg numCPU st (some (95, memUtil)) (some netU) now).cpuWorkers
      < st.cpuWorkers := by
  have hn1 : ¬ (st.scalingUp = true ∧ now - st.lastScaleAction < cfg.scaleUpDelay) := by
    rintro ⟨hs, hlt⟩
    exact absurd hlt (not_lt.mpr (hg1 hs))
  have hn2 : ¬ (¬ st.scalingUp = true ∧ now - st.lastScaleAction < cfg.scaleDownDelay) := by
    rintro ⟨hns, hlt⟩
    have hf : st.scalingUp = false := by
      cases h : st.scalingUp
      · rfl
      · exact absurd h hns
    exact absurd hlt (not_lt.mpr (hg2 hf))
  have hnf : ¬ (getCPU95thPercentile (addCPUSample st.cpuSamples 95) < cfg.minCPUUtilization ∨
      (cfg.enableMemoryUtilization = true ∧ memUtil < cfg.minMemoryUtilization) ∨
      netU < cfg.minNetworkUtilizationMbps) := by
    rintro (h | h | h)
    · exact hf1 h
    · exact hf2 h
    · exact hf3 h
  have hcpu : |(95 : ℚ) - cfg.targetCPUUtilization| > 10 := by
    rw [hT]
    norm_num
  simp only [monitorTick, Option.getD_some, if_neg hn1, if_neg hn2, if_neg hnf,
    targetAdjust, if_pos (Or.inl hcpu), if_pos hcpu, ite_netAdjust_cpuWorkers,
    ite_memAdjust_cpuWorkers]
  rw [hT]
  have key : ∀ s : BurnerState, 0 < s.cpuWorkers →
      (s.stopChannels.length : ℤ) = s.cpuWorkers →
      (adjustCPULoad numCPU 80 95 s).cpuWorkers < s.cpuWorkers := by
    intro s h1 h2
    rw [adjustCPULoad_small_down numCPU 80 95 s (by norm_num) (by norm_num) h1 h2]
    omega
  refine key _ ?_ ?_
  · exact hw
  · exact hlen

/-- A state with three CPU workers used to witness C6. -/
def stThreeWorkers : BurnerState :=
  { initState with cpuWorkers := 3, stopChannels := [(), (), ()], cpuSamples := [90] }

/-- Witness for C6: from three workers, a high sample history and
in-range memory/network readings, the tick removes a worker. -/
theorem target_scale_down_decreases_cpu_witness :
    cfgDefault.targetCPUUtilization = 80 ∧
    (¬ getCPU95thPercentile (addCPUSample stThreeWorkers.cpuSamples 95) <
      cfgDefault.minCPUUtilization) ∧
    0 < stThreeWorkers.cpuWorkers ∧
    (monitorTick cfgDefault 4 stThreeWorkers (some (95, 80)) (some 25) 200).cpuWorkers
      < stThreeWorkers.cpuWorkers :=
  ⟨rfl, by decide, by decide,
    target_scale_down_decreases_cpu cfgDefault 4 stThreeWorkers 80 25 200 rfl
      (by decide) (by decide) (by decide) (by decide) (by decide) (by decide) (by decide)⟩

end GoBurn

/-! ## The scaling-direction flag ignores the memory enable flag (C10) -/

namespace GoBurn

/-- C10: in target-based adjustment the direction flag is the
disjunction "CPU below target, or memory below target, or network
below minimum", computed without consulting
`enableMemoryUtilization`: with memory disabled, a memory reading
below the memory target still marks the state scaling-up (selecting
the scale-up cooldown) while the memory buffer itself is untouched. -/
theorem scaling_direction_ignores_memory_enable (cfg : Config) (numCPU : ℕ)
    (st : BurnerState) (cpuUtil memUtil netU : ℚ) (now : ℤ)
    (henable : cfg.enableMemoryUtilization = false)
    (hg1 : st.scalingUp = true → cfg.scaleUpDelay ≤ now - st.lastScaleAction)
    (hg2 : st.scalingUp = false → cfg.scaleDownDelay ≤ now - st.lastScaleAction)
    (hf1 : ¬ getCPU95thPercentile (addCPUSample st.cpuSamples cpuUtil) < cfg.minCPUUtilization)
    (hf3 : ¬ netU < cfg.minNetworkUtilizationMbps)
    (hmem : memUtil < cfg.targetMemoryUtilization)
    (hdev : |cpuUtil - cfg.targetCPUUtilization| > 10) :
    (monitorTick cfg numCPU st (some (cpuUtil, memUtil)) (some netU) now).scalingUp = true ∧
    (monitorTick cfg numCPU st (some (cpuUtil, memUtil)) (some netU) now).memoryData
      = st.memoryData := by
  have hn1 : ¬ (st.scalingUp = true ∧ now - st.lastScaleAction < cfg.scaleUpDelay) := by
    rintro ⟨hs, hlt⟩
    exact absurd hlt (not_lt.mpr (hg1 hs))
  have hn2 : ¬ (¬ st.scalingUp = true ∧ now - st.lastScaleAction < cfg.scaleDownDelay) := by
    rintro ⟨hns, hlt⟩
    have hf : st.scalingUp = false := by
      cases h : st.scalingUp
      · rfl
      · exact absurd h hns
    exact absurd hlt (not_lt.mpr (hg2 hf))
  have hnf : ¬ (getCPU95thPercentile (addCPUSample st.cpuSamples cpuUtil) <
        cfg.minCPUUtilization ∨
      (cfg.enableMemoryUtilization = true ∧ memUtil < cfg.minMemoryUtilization) ∨
      netU < cfg.minNetworkUtilizationMbps) := by
    rintro (h | ⟨h, -⟩ | h)
    · exact hf1 h
    · rw [henable] at h
      exact Bool.false_ne_true h
    · exact hf3 h
  have hmm : ¬ (cfg.enableMemoryUtilization = true ∧
      |memUtil - cfg.targetMemoryUtilization| > 10) := by
    rintro ⟨h, -⟩
    rw [henable] at h
    exact Bool.false_ne_true h
  have hdir : cpuUtil < cfg.targetCPUUtilization ∨
      memUtil < cfg.targetMemoryUtilization ∨ netU < cfg.minNetworkUtilizationMbps :=
    Or.inr (Or.inl hmem)
  constructor
  · simp only [monitorTick, Option.getD_some, if_neg hn1, if_neg hn2, if_neg hnf,
      targetAdjust, if_pos (Or.inl hdev), if_neg hmm, ite_netAdjust_scalingUp,
      ite_cpuAdjust_scalingUp, if_pos hdir]
  · simp only [monitorTick, Option.getD_some, if_neg hn1, if_neg hn2, if_neg hnf,
      targetAdjust, if_pos (Or.inl hdev), if_neg hmm, ite_netAdjust_memoryData,
      ite_cpuAdjust_memoryData]

/-- The default configuration with memory utilization disabled
(`ENABLE_MEMORY_UTILIZATION=false`), used to witness C10. -/
def cfgNoMem : Config := { cfgDefault with enableMemoryUtilization := false }

/-- Witness for C10: memory disabled, memory reading 50 below target
80, CPU reading 95 far above target: the tick marks scaling-up and
leaves the buffer alone. -/
theorem scaling_direction_ignores_memory_enable_witness :
    cfgNoMem.enableMemoryUtilization = false ∧
    (50 : ℚ) < cfgNoMem.targetMemoryUtilization ∧
    (monitorTick cfgNoMem 4 initState (some (95, 50)) (some 25) 200).scalingUp = true ∧
    (monitorTick cfgNoMem 4 initState (some (95, 50)) (some 25) 200).memoryData
      = initState.memoryData :=
  ⟨rfl, by decide,
   (scaling_direction_ignores_memory_enable cfgNoMem 4 initState 95 50 25 200 rfl
     (by decide) (by decide) (by decide) (by decide) (by decide) (by norm_num [cfgNoMem, cfgDefault])).1,
   (scaling_direction_ignores_memory_enable cfgNoMem 4 initState 95 50 25 200 rfl
     (by decide) (by decide) (by decide) (by decide) (by decide) (by norm_num [cfgNoMem, cfgDefault])).2⟩

end GoBurn

/-! ## Minimum-floor enforcement of the CPU pool (C1) -/

namespace GoBurn

/-- From an empty CPU pool with at least one processor, the scale-up
call leaves a positive worker count iff the utilization difference
reaches 20 (so that `int(diff/20) ≥ 1`). -/
lemma adjustCPULoad_zero_pos_iff (numCPU : ℕ) (t c : ℚ) (st : BurnerState)
    (hw : st.cpuWorkers = 0) (hn : 1 ≤ numCPU) :
    (0 < (adjustCPULoad numCPU t c st).cpuWorkers ↔ 20 ≤ t - c) := by
  have hn' : (1 : ℤ) ≤ (numCPU : ℤ) := by exact_mod_cast hn
  have hcap : st.cpuWorkers < (numCPU : ℤ) * 2 := by omega
  constructor
  · intro hpos
    by_contra hlt
    push_neg at hlt
    rcases le_or_lt (t - c) 10 with h10 | h10
    · have hb1 : ¬ (t - c > 10 ∧ st.cpuWorkers < (numCPU : ℤ) * 2) := by
        rintro ⟨h, -⟩
        linarith
      have hb2 : ¬ (t - c < -10 ∧ st.cpuWorkers > 0) := by
        rintro ⟨-, h⟩
        omega
      simp only [adjustCPULoad, if_neg hb1, if_neg hb2] at hpos
      omega
    · have hdq : (0 : ℚ) ≤ (t - c) / 20 := by
        apply div_nonneg <;> linarith
      have htr : trunc ((t - c) / 20) = 0 := by
        unfold trunc
        rw [if_pos hdq]
        refine Int.floor_eq_zero_iff.mpr (Set.mem_Ico.mpr ⟨hdq, ?_⟩)
        rw [div_lt_one (by norm_num : (0 : ℚ) < 20)]
        linarith
      simp only [adjustCPULoad, if_pos (show t - c > 10 ∧ st.cpuWorkers < (numCPU : ℤ) * 2
        from ⟨h10, hcap⟩), htr] at hpos
      rw [min_eq_left (by omega)] at hpos
      omega
  · intro h20
    have h10 : t - c > 10 := by linarith
    have htr1 : 1 ≤ trunc ((t - c) / 20) := by
      unfold trunc
      rw [if_pos (by apply div_nonneg <;> linarith)]
      rw [Int.le_floor]
      push_cast
      rw [le_div_iff₀ (by norm_num : (0 : ℚ) < 20)]
      linarith
    simp only [adjustCPULoad, if_pos (show t - c > 10 ∧ st.cpuWorkers < (numCPU : ℤ) * 2
      from ⟨h10, hcap⟩)]
    omega

set_option maxRecDepth 8000 in
/-- Counterexample for C1: the spec's scenario (CPU 95th-percentile 15
against minimum 20, no cooldown pending) with the current CPU reading
also 15.  The enforcement path runs (the state is marked scaling-up
with the timestamp recorded) but `adjustCPULoad(30, 15)` adds
`int(15/20) = 0` workers, so the pool count is not greater than 0. -/
theorem enforcement_scenario_counterexample :
    initState.scalingUp = false ∧
    cfgDefault.scaleDownDelay ≤ 200 - initState.lastScaleAction ∧
    getCPU95thPercentile (addCPUSample initState.cpuSamples 15) = 15 ∧
    cfgDefault.minCPUUtilization = 20 ∧
    (monitorTick cfgDefault 4 initState (some (15, 80)) (some 25) 200).scalingUp = true ∧
    (monitorTick cfgDefault 4 initState (some (15, 80)) (some 25) 200).lastScaleAction = 200 ∧
    ¬ 0 < (monitorTick cfgDefault 4 initState (some (15, 80)) (some 25) 200).cpuWorkers := by
  refine ⟨rfl, by decide, by decide, rfl, ?_, ?_, ?_⟩ <;>
    norm_num [monitorTick, addCPUSample, getCPU95thPercentile, enforceMinimums,
      adjustCPULoad, adjustMemoryLoad, adjustNetworkLoad, targetAdjust, trunc,
      initState, cfgDefault, List.insertionSort, List.orderedInsert, stopLoop]

/-- C1 (amended): if the CPU 95th-percentile computed after recording
the sample is below the configured minimum and no cooldown is pending,
the enforcement path runs on that tick: the scaling state is marked
scaling-up with the action timestamp recorded, the CPU pool count is
exactly the result of the enforcement call toward `minimum + 10`
(target-based adjustment is skipped), and from an empty pool on a
machine with at least one processor the resulting count is positive iff
the current CPU utilization is at most `minimum - 10` (the enforcement
call adds `int(diff/20)` workers, which is 0 while `diff < 20`). -/
theorem enforcement_tick_cpu (cfg : Config) (numCPU : ℕ) (st : BurnerState)
    (cpuUtil memUtil : ℚ) (netFetch : Option ℚ) (now : ℤ)
    (hg1 : st.scalingUp = true → cfg.scaleUpDelay ≤ now - st.lastScaleAction)
    (hg2 : st.scalingUp = false → cfg.scaleDownDelay ≤ now - st.lastScaleAction)
    (hfloor : getCPU95thPercentile (addCPUSample st.cpuSamples cpuUtil) <
      cfg.minCPUUtilization) :
    (monitorTick cfg numCPU st (some (cpuUtil, memUtil)) netFetch now).scalingUp = true ∧
    (monitorTick cfg numCPU st (some (cpuUtil, memUtil)) netFetch now).lastScaleAction = now ∧
    (monitorTick cfg numCPU st (some (cpuUtil, memUtil)) netFetch now).cpuWorkers =
      (adjustCPULoad numCPU (cfg.minCPUUtilization + 10) cpuUtil
        { st with cpuSamples := addCPUSample st.cpuSamples cpuUtil }).cpuWorkers ∧
    (st.cpuWorkers = 0 → 1 ≤ numCPU →
      (0 < (monitorTick cfg numCPU st (some (cpuUtil, memUtil)) netFetch now).cpuWorkers ↔
        cpuUtil ≤ cfg.minCPUUtilization - 10)) := by
  have hn1 : ¬ (st.scalingUp = true ∧ now - st.lastScaleAction < cfg.scaleUpDelay) := by
    rintro ⟨hs, hlt⟩
    exact absurd hlt (not_lt.mpr (hg1 hs))
  have hn2 : ¬ (¬ st.scalingUp = true ∧ now - st.lastScaleAction < cfg.scaleDownDelay) := by
    rintro ⟨hns, hlt⟩
    have hf : st.scalingUp = false := by
      cases h : st.scalingUp
      · rfl
      · exact absurd h hns
    exact absurd hlt (not_lt.mpr (hg2 hf))
  refine ⟨?_, ?_, ?_, ?_⟩
  · simp only [monitorTick, if_neg hn1, if_neg hn2, if_pos (Or.inl hfloor)]
  · simp only [monitorTick, if_neg hn1, if_neg hn2, if_pos (Or.inl hfloor)]
  · simp only [monitorTick, if_neg hn1, if_neg hn2, if_pos (Or.inl hfloor),
      enforceMinimums, if_pos hfloor, ite_netAdjust_cpuWorkers, ite_memAdjust_cpuWorkers]
  · intro hw0 hn
    simp only [monitorTick, if_neg hn1, if_neg hn2, if_pos (Or.inl hfloor),
      enforceMinimums, if_pos hfloor, ite_netAdjust_cpuWorkers, ite_memAdjust_cpuWorkers]
    rw [adjustCPULoad_zero_pos_iff numCPU (cfg.minCPUUtilization + 10) cpuUtil
      { st with cpuSamples := addCPUSample st.cpuSamples cpuUtil } hw0 hn]
    constructor <;> intro h <;> linarith

/-- Witness for C1 (amended): percentile 15 below minimum 20, current
CPU reading 5 (at least 10 below the minimum), so the enforcement tick
leaves a positive pool count. -/
theorem enforcement_tick_cpu_witness :
    getCPU95thPercentile (addCPUSample initState.cpuSamples 5) < cfgDefault.minCPUUtilization ∧
    initState.cpuWorkers = 0 ∧ 1 ≤ 4 ∧
    (monitorTick cfgDefault 4 initState (some (5, 80)) (some 25) 200).scalingUp = true ∧
    (monitorTick cfgDefault 4 initState (some (5, 80)) (some 25) 200).lastScaleAction = 200 ∧
    (0 < (monitorTick cfgDefault 4 initState (some (5, 80)) (some 25) 200).cpuWorkers ↔
      (5 : ℚ) ≤ cfgDefault.minCPUUtilization - 10) :=
  ⟨by decide, rfl, by decide,
   (enforcement_tick_cpu cfgDefault 4 initState 5 80 (some 25) 200
     (by decide) (by decide) (by decide)).1,
   (enforcement_tick_cpu cfgDefault 4 initState 5 80 (some 25) 200
     (by decide) (by decide) (by decide)).2.1,
   (enforcement_tick_cpu cfgDefault 4 initState 5 80 (some 25) 200
     (by decide) (by decide) (by decide)).2.2.2 rfl (by decide)⟩

end GoBurn
